import Mathlib

set_option autoImplicit false

set_option maxRecDepth 100000

/-!
Shallow embedding of the configuration-resolution and template-rendering
pipeline of the chatbot generator (`generate_chatbot.py` and
`templates/update_config.py`).  Python strings are modelled as `List Char`;
Python `str.replace`, `str.split`, `str.strip` and the `in` substring test are
given explicit executable models, and the file-system side effects of the
generator are modelled as explicit operation traces.
-/

/-- The character list of a string literal (Python strings are lists of
characters in this model). -/
def strOf (s : String) : List Char := s.data

/-- Whitespace predicate used by the model of Python `str.strip`. -/
def isSpace (c : Char) : Bool := c.isWhitespace

/-- Model of Python `str.strip()`: drop whitespace from both ends. -/
def stripL (l : List Char) : List Char :=
  ((l.dropWhile isSpace).reverse.dropWhile isSpace).reverse

/-- Fuel-indexed model of Python `str.replace(old, new)`: scan left to right,
replace each non-overlapping occurrence of `old` by `new`, and continue
scanning after the inserted text (the inserted `new` is never re-scanned).
The fuel is the length of the scanned list. -/
def replaceCore (old new : List Char) : Nat → List Char → List Char
  | _, [] => []
  | 0, l => l
  | fuel + 1, c :: cs =>
    if old <+: (c :: cs) then
      new ++ replaceCore old new fuel ((c :: cs).drop old.length)
    else
      c :: replaceCore old new fuel cs

/-- Model of Python `str.replace(old, new)` (for non-empty `old`). -/
def replaceL (old new l : List Char) : List Char :=
  replaceCore old new l.length l

/-- Fuel-indexed model of Python `str.split(sep)` for a non-empty separator:
the list of segments strictly between consecutive non-overlapping occurrences
of `sep`. -/
def splitCore (sep : List Char) : Nat → List Char → List (List Char)
  | _, [] => [[]]
  | 0, l => [l]
  | fuel + 1, c :: cs =>
    if sep <+: (c :: cs) then
      [] :: splitCore sep fuel ((c :: cs).drop sep.length)
    else
      match splitCore sep fuel cs with
      | [] => [[c]]
      | p :: ps => (c :: p) :: ps

/-- Model of Python `str.split(sep)` (for non-empty `sep`). -/
def splitL (sep l : List Char) : List (List Char) :=
  splitCore sep l.length l

/-- Split at the first occurrence of `sep`: returns the segment before it and
the remainder after it, or `none` when `sep` does not occur. -/
def splitFirst (sep : List Char) : List Char → Option (List Char × List Char)
  | [] => none
  | c :: cs =>
    if sep <+: (c :: cs) then
      some ([], (c :: cs).drop sep.length)
    else
      (splitFirst sep cs).map (fun q => (c :: q.1, q.2))

/-! ### Constants of `get_system_prompt` (`generate_chatbot.py`) -/

/-- The sentinel substring used to detect unedited boilerplate. -/
def sentinel : List Char := strOf "Delete everything above this line"

/-- The heading marker opening the default-prompt section. -/
def defaultPromptHeading : List Char := strOf "## Default Prompt"

/-- The heading marker opening the tips section. -/
def tipsHeading : List Char := strOf "## Tips"

/-- The prompt-only description placeholder token. -/
def descriptionToken : List Char := strOf "\x7b\x7bchatbot_description\x7d\x7d"

/-- `DEFAULT_SYSTEM_PROMPT` from `generate_chatbot.py`. -/
def DEFAULT_SYSTEM_PROMPT : List Char :=
  strOf "You are a helpful assistant specialized in \x7b\x7bchatbot_description\x7d\x7d. \nYou provide accurate, concise information based on your knowledge and the documents in your knowledge base.\nIf you don\x27t know something or if the information isn\x27t in your knowledge base, admit it clearly.\nAlways maintain a helpful and professional tone."

/-- Model of `get_system_prompt` on the successful-read path: `raw` is the text
of the hand-off file, stripped on read (`content = f.read().strip()`).  When
the sentinel is present, the section between the first and next
`"## Default Prompt"` split boundary is cut at `"## Tips"`, stripped, and the
description token is substituted; when it is absent the stripped content is
returned as-is. -/
def get_system_prompt (chatbot_description raw : List Char) : List Char :=
  if sentinel <:+: stripL raw then
    if defaultPromptHeading <:+: stripL raw ∧ tipsHeading <:+: stripL raw then
      replaceL descriptionToken chatbot_description
        (stripL ((splitL tipsHeading
          ((splitL defaultPromptHeading (stripL raw)).getD 1 [])).getD 0 []))
    else
      replaceL descriptionToken chatbot_description DEFAULT_SYSTEM_PROMPT
  else
    stripL raw

/-- The segment of `l` before the first occurrence of `sep` (all of `l` when
`sep` does not occur). -/
def beforeFirst (sep l : List Char) : List Char :=
  match splitFirst sep l with
  | none => l
  | some q => q.1

/-! ### LLM parameters (`get_llm_parameters`) -/

/-- A JSON scalar value as stored in the parameter map. -/
inductive JVal where
  | num (q : ℚ)
  | boolean (b : Bool)
  | text (s : String)
deriving DecidableEq

/-- `DEFAULT_LLM_PARAMS` from `generate_chatbot.py`. -/
def DEFAULT_LLM_PARAMS : List (String × JVal) :=
  [("temperature", JVal.num (7 / 10)),
   ("top_k", JVal.num 40),
   ("top_p", JVal.num (9 / 10)),
   ("max_tokens", JVal.num 1024),
   ("presence_penalty", JVal.num 0),
   ("frequency_penalty", JVal.num 0)]

/-- First-match lookup in an ordered key-value map (Python dict access). -/
def lookupKey (k : String) : List (String × JVal) → Option JVal
  | [] => none
  | p :: ps => if p.1 = k then some p.2 else lookupKey k ps

/-- The validation loop of `get_llm_parameters`:
`for key, default_value in DEFAULT_LLM_PARAMS.items(): if key not in
custom_params: custom_params[key] = default_value`.  Adding a missing key to a
Python dict appends it in insertion order. -/
def fillMissing (defaults m : List (String × JVal)) : List (String × JVal) :=
  defaults.foldl
    (fun acc kd => if kd.1 ∈ acc.map Prod.fst then acc else acc ++ [kd]) m

/-- The merge performed by `get_llm_parameters` on a successfully parsed map. -/
def get_llm_parameters_merge (custom_params : List (String × JVal)) :
    List (String × JVal) :=
  fillMissing DEFAULT_LLM_PARAMS custom_params

/-- The fenced-block extraction
`re.search` with pattern ` ```json\s*(.*?)\s*``` ` and `re.DOTALL`: the text strictly
between the first ` ```json ` and the first following ` ``` `, with
surrounding whitespace stripped (the lazy group with `\s*` on both sides). -/
def fencedJsonBlock (content : List Char) : Option (List Char) :=
  match splitFirst (strOf "```json") content with
  | none => none
  | some q =>
    match splitFirst (strOf "```") q.2 with
    | none => none
    | some r => some (stripL r.1)

/-- The read path of `get_llm_parameters`, with Python `json.loads` abstracted
as `loads` (`none` models a raised `JSONDecodeError`); the surrounding
`try/except` returns `DEFAULT_LLM_PARAMS` on any failure. -/
def get_llm_parameters
    (loads : List Char → Option (List (String × JVal)))
    (content : List Char) : List (String × JVal) :=
  match fencedJsonBlock content with
  | some j =>
    match loads j with
    | some m => get_llm_parameters_merge m
    | none => DEFAULT_LLM_PARAMS
  | none =>
    match loads content with
    | some m => get_llm_parameters_merge m
    | none => DEFAULT_LLM_PARAMS

/-! ### The template renderer (`copy_and_update_template_files`) -/

/-- The placeholder the renderer builds for a key:
`f"\x7b\x7b\x7b\x7b\x7b\x7b \x7bkey\x7d \x7d\x7d\x7d\x7d\x7d\x7d"`, i.e. the
key name wrapped in triple braces with inner spaces. -/
def placeholderTok (key : String) : List Char :=
  strOf "\x7b\x7b\x7b " ++ (key.data ++ strOf " \x7d\x7d\x7d")

/-- A double-braced, single-space-padded token as it appears in the
template files of the repository itself (`templates/llm.py`). -/
def doubleBraceToken (key : String) : List Char :=
  strOf "\x7b\x7b " ++ (key.data ++ strOf " \x7d\x7d")

/-- The per-file substitution loop of `copy_and_update_template_files`:
`for key, value in config.items(): content = content.replace(placeholder, str(value))`. -/
def renderContent (config : List (String × String)) (content : List Char) : List Char :=
  config.foldl (fun acc kv => replaceL (placeholderTok kv.1) (strOf kv.2) acc) content

/-- A resolved configuration in the key order built by `main`, in which the
free-text description value contains the token of the later key
`github_username`. -/
def exampleConfig : List (String × String) :=
  [("chatbot_name", "birdbot"),
   ("chatbot_description", "\x7b\x7b\x7b github_username \x7d\x7d\x7d"),
   ("model_name", "llama3.2:1b"),
   ("github_username", "alice"),
   ("repository_name", "birdbot-chatbot"),
   ("date_created", "2026-10-12"),
   ("theme_name", "sky"),
   ("primary_color", "#0EA5E9"),
   ("background_color", "#F0F9FF"),
   ("text_color", "#0C4A6E"),
   ("font_family", "Inter, system-ui, sans-serif"),
   ("font_style", "clean"),
   ("font_name", "Modern")]

/-- The text of `templates/llm.py`, line 27, a file of the template tree
rendered by `copy_and_update_template_files`; its placeholder is
double-braced. -/
def llmTemplateLine : List Char :=
  strOf "    def __init__(self, model_name: str = \"\x7b\x7b model_name \x7d\x7d\", base_url: str = \"http://ollama:11434\"):"

/-- The whole-tree loop of `copy_and_update_template_files` over the
enumerated template files in glob order.  The content of a file is `none` when its
read raises.  The source has no per-file exception handler, so the loop stops
at the first unreadable file: the model returns the files written before the
failure together with the failing path, if any. -/
def copy_and_update_template_run (config : List (String × String)) :
    List (String × Option (List Char)) →
      List (String × List Char) × Option String
  | [] => ([], none)
  | (path, none) :: _ => ([], some path)
  | (path, some content) :: rest =>
    let r := copy_and_update_template_run config rest
    ((path, renderContent config content) :: r.1, r.2)

/-! ### Directory creation (`create_directory_structure`) -/

/-- A file-system operation performed by the generator. -/
inductive FsOp where
  | rmtree (path : String)
  | mkdir (path : String)
deriving DecidableEq

/-- The `directories` list of `create_directory_structure`. -/
def chatbotDirectories : List String :=
  ["", "src", "src/static/css", "src/static/js", "src/templates", "src/models",
   "src/knowledge_base", "src/utils", "knowledge/documents", "docs"]

/-- Model of `create_directory_structure` as a trace of file-system
operations: when the target directory pre-exists the user is asked once; a
declined confirmation runs `sys.exit(0)` before any `rmtree`/`mkdir`
(returned flag `false` = run aborted); otherwise the pre-existing tree is
removed (when it existed) and the directory skeleton is created. -/
def create_directory_structure (chatbot_name : String)
    (dirExists confirm : Bool) : List FsOp × Bool :=
  if dirExists then
    if confirm then
      (FsOp.rmtree chatbot_name ::
        chatbotDirectories.map (fun d => FsOp.mkdir (chatbot_name ++ "/" ++ d)),
        true)
    else ([], false)
  else
    (chatbotDirectories.map (fun d => FsOp.mkdir (chatbot_name ++ "/" ++ d)),
      true)

/-! ### `update_parameters` (`templates/update_config.py`) -/

/-- The `metadata` object of the persisted configuration file. -/
structure Metadata where
  created_at : String
  description : String
  version : String
deriving DecidableEq

/-- The persisted configuration object loaded by `update_config.py`. -/
structure LlmConfig where
  system_prompt : String
  parameters : List (String × JVal)
  metadata : Metadata
deriving DecidableEq

/-- Python dict assignment `config["parameters"][key] = value`: replace the
value in place when the key exists, append the pair otherwise. -/
def setParam (m : List (String × JVal)) (k : String) (v : JVal) :
    List (String × JVal) :=
  if k ∈ m.map Prod.fst then
    m.map (fun p => if p.1 = k then (k, v) else p)
  else
    m ++ [(k, v)]

/-- `update_parameters` from `templates/update_config.py`:
`for key, value in param_updates.items(): config["parameters"][key] = value`. -/
def update_parameters (config : LlmConfig)
    (param_updates : List (String × JVal)) : LlmConfig :=
  { config with
    parameters :=
      param_updates.foldl (fun acc kv => setParam acc kv.1 kv.2)
        config.parameters }

/-! ### Stylesheet composition (`generate_custom_css`) -/

/-- A theme registry entry (`THEME_COLORS` values). -/
structure ThemeColors where
  primary : String
  bg : String
  text : String
deriving DecidableEq

/-- A font registry entry (`FONT_STYLES` items). -/
structure FontStyle where
  name : String
  font_family : String
  style : String
deriving DecidableEq

/-- The ordered `THEME_COLORS` registry. -/
def THEME_COLORS : List (String × ThemeColors) :=
  [("sky", ⟨"#0EA5E9", "#F0F9FF", "#0C4A6E"⟩),
   ("forest", ⟨"#22C55E", "#F0FDF4", "#14532D"⟩),
   ("lavender", ⟨"#8B5CF6", "#F5F3FF", "#4C1D95"⟩),
   ("sunset", ⟨"#F59E0B", "#FFFBEB", "#78350F"⟩),
   ("ocean", ⟨"#0891B2", "#ECFEFF", "#155E75"⟩)]

/-- The `FONT_STYLES` registry. -/
def FONT_STYLES : List FontStyle :=
  [⟨"Modern", "Inter, system-ui, sans-serif", "clean"⟩,
   ⟨"Classic", "Georgia, serif", "traditional"⟩,
   ⟨"Minimal", "Roboto, Arial, sans-serif", "minimal"⟩,
   ⟨"Technical", "JetBrains Mono, monospace", "code"⟩,
   ⟨"Friendly", "Quicksand, sans-serif", "rounded"⟩]

/-- The `"rounded"` entry of `FONT_STYLES`. -/
def friendlyFont : FontStyle := ⟨"Friendly", "Quicksand, sans-serif", "rounded"⟩

/-- The fallback base stylesheet used when the base CSS file is missing. -/
def defaultBaseCss : String := "/* Default styles */\n"

/-- The generated part of `custom_css` (the f-string of
`generate_custom_css`), around the base stylesheet and ending with the
style-comment line.  `theme_colors.get("name", "Custom")` always yields
`"Custom"` because the theme dictionaries carry no `name` key. -/
def cssScaffold (botName : String) (theme : ThemeColors) (font : FontStyle)
    (base_css : String) : String :=
  "/* \n * Custom CSS for " ++ botName ++ " chatbot\n * Theme: Custom\n * Font: "
    ++ font.name ++
    "\n */\n\n:root \x7b\n    --primary-color: " ++ theme.primary ++
    ";\n    --background-color: " ++ theme.bg ++
    ";\n    --text-color: " ++ theme.text ++
    ";\n    --font-family: " ++ font.font_family ++
    ";\n\x7d\n\nbody \x7b\n    font-family: var(--font-family);\n    background-color: var(--background-color);\n    color: var(--text-color);\n\x7d\n\n.header \x7b\n    background-color: var(--primary-color);\n\x7d\n\n.primary-button, button[type=\"submit\"] \x7b\n    background-color: var(--primary-color);\n\x7d\n\n.bot-message \x7b\n    border-left: 3px solid var(--primary-color);\n\x7d\n\n.bot-info \x7b\n    margin-top: 10px;\n    color: #586e75;\n    font-style: italic;\n\x7d\n\n.customization-tip \x7b\n    background-color: rgba(var(--primary-color-rgb, 14, 165, 233), 0.1);\n    border-radius: 6px;\n    padding: 12px 16px;\n    margin: 20px 0;\n    font-size: 0.9rem;\n\x7d\n\n.customization-tip code \x7b\n    background-color: rgba(0,0,0,0.05);\n    padding: 2px 4px;\n    border-radius: 3px;\n\x7d\n\n/* Base styles */\n"
    ++ base_css ++
    "\n\n/* Custom " ++ font.style ++ " style adjustments */\n"

/-- The `"clean"` trailing block. -/
def cleanBlock : String :=
  "\n.message \x7b\n    border-radius: 4px;\n\x7d\n.input-container \x7b\n    border-radius: 4px;\n\x7d\n"

/-- The `"traditional"` trailing block. -/
def traditionalBlock : String :=
  "\n.message \x7b\n    border-radius: 0;\n    border-bottom: 1px solid rgba(0,0,0,0.1);\n\x7d\nh1, h2, h3 \x7b\n    font-weight: normal;\n    letter-spacing: -0.5px;\n\x7d\n"

/-- The `"minimal"` trailing block. -/
def minimalBlock : String :=
  "\n* \x7b\n    transition: all 0.2s ease;\n\x7d\n.message \x7b\n    border: none;\n    border-bottom: 1px solid rgba(0,0,0,0.05);\n    margin-bottom: 8px;\n\x7d\nbutton \x7b\n    border-radius: 3px;\n\x7d\n"

/-- The `"code"` trailing block. -/
def codeBlock : String :=
  "\npre, code \x7b\n    font-family: var(--font-family);\n\x7d\n.message \x7b\n    border-radius: 0;\n    border-left: 2px solid var(--primary-color);\n\x7d\n.user-message \x7b\n    border-left: 2px solid #606060;\n\x7d\n"

/-- The `"rounded"` trailing block. -/
def roundedBlock : String :=
  "\n.message \x7b\n    border-radius: 18px;\n\x7d\nbutton \x7b\n    border-radius: 24px;\n\x7d\n.chat-form input \x7b\n    border-radius: 24px;\n\x7d\n"

/-- Model of `generate_custom_css`: the scaffold (header, base stylesheet and
style comment) followed by the trailing block selected by exact match of the
style tag of the font against the five known tags; no branch matches an unknown
tag, so the scaffold alone is emitted. -/
def generate_custom_css (botName : String) (theme : ThemeColors)
    (font : FontStyle) (base_css : String) : List Char :=
  if font.style = "clean" then
    strOf (cssScaffold botName theme font base_css) ++ strOf cleanBlock
  else if font.style = "traditional" then
    strOf (cssScaffold botName theme font base_css) ++ strOf traditionalBlock
  else if font.style = "minimal" then
    strOf (cssScaffold botName theme font base_css) ++ strOf minimalBlock
  else if font.style = "code" then
    strOf (cssScaffold botName theme font base_css) ++ strOf codeBlock
  else if font.style = "rounded" then
    strOf (cssScaffold botName theme font base_css) ++ strOf roundedBlock
  else
    strOf (cssScaffold botName theme font base_css)

/-- Executable prefix test on character lists (tail-recursive so that large
stylesheets evaluate by iterated head reduction). -/
def isPrefixB : List Char → List Char → Bool
  | [], _ => true
  | _ :: _, [] => false
  | a :: as, b :: bs => a == b && isPrefixB as bs

/-- Executable substring test on character lists. -/
def containsB (needle : List Char) : List Char → Bool
  | [] => isPrefixB needle []
  | h :: t => isPrefixB needle (h :: t) || containsB needle t

/-- Stated from the spec sentence for C5: the text strictly between the first
occurrence of the `"## Default Prompt"` heading and the first following
occurrence of the `"## Tips"` heading (to the end of the text when no
`"## Tips"` follows).  This is the claimed interior, to be compared with what
the code computes. -/
def interiorBetweenMarkers (content : List Char) : List Char :=
  match splitFirst defaultPromptHeading content with
  | none => []
  | some q =>
    match splitFirst tipsHeading q.2 with
    | none => q.2
    | some r => r.1

/-- What the code actually computes on the boilerplate path: the segment
between the first and (if present) second occurrence of `"## Default Prompt"`,
cut at the first `"## Tips"` inside that segment. -/
def betweenHeadingSplits (content : List Char) : List Char :=
  match splitFirst defaultPromptHeading content with
  | none => []
  | some q => beforeFirst tipsHeading (beforeFirst defaultPromptHeading q.2)

/-- Boilerplate text whose `"## Default Prompt"` heading occurs twice before
`"## Tips"`; a concrete input separating the code from claim C5. -/
def duplicatedHeadingFile : List Char :=
  strOf "Delete everything above this line## Default Prompt A ## Default Prompt B ## Tips"

/-! ### Basic facts about the string model -/

theorem stripL_within (l : List Char) : stripL l <:+: l := by
  have h1 : l.dropWhile isSpace <:+ l := List.dropWhile_suffix _
  have h2 : (l.dropWhile isSpace).reverse.dropWhile isSpace <:+
      (l.dropWhile isSpace).reverse := List.dropWhile_suffix _
  have h3 : stripL l <+: l.dropWhile isSpace := by
    have h4 := h2.reverse
    rwa [List.reverse_reverse] at h4
  exact h3.isInfix.trans h1.isInfix

theorem splitCore_congr (sep : List Char) (hsep : sep ≠ []) :
    ∀ f1 f2 l, l.length ≤ f1 → l.length ≤ f2 →
      splitCore sep f1 l = splitCore sep f2 l := by
  intro f1
  induction f1 with
  | zero =>
    intro f2 l h1 _
    have hl : l = [] := List.eq_nil_of_length_eq_zero (Nat.le_zero.mp h1)
    subst hl
    cases f2 <;> rfl
  | succ g ih =>
    intro f2 l h1 h2
    match l with
    | [] => cases f2 <;> rfl
    | c :: cs =>
      match f2 with
      | 0 => simp at h2
      | g2 + 1 =>
        have hsl : 1 ≤ sep.length := by
          cases sep with
          | nil => exact absurd rfl hsep
          | cons a s => simp
        simp only [splitCore]
        by_cases hp : sep <+: (c :: cs)
        · rw [if_pos hp, if_pos hp,
            ih g2 ((c :: cs).drop sep.length) (by simp at h1 ⊢; omega)
              (by simp at h2 ⊢; omega)]
        · rw [if_neg hp, if_neg hp,
            ih g2 cs (by simp at h1 ⊢; omega) (by simp at h2 ⊢; omega)]

theorem splitL_eq (sep : List Char) (hsep : sep ≠ []) (l : List Char) :
    splitL sep l =
      match splitFirst sep l with
      | none => [l]
      | some q => q.1 :: splitL sep q.2 := by
  induction l with
  | nil => rfl
  | cons c cs ih =>
    have hsl : 1 ≤ sep.length := by
      cases sep with
      | nil => exact absurd rfl hsep
      | cons a s => simp
    by_cases hp : sep <+: (c :: cs)
    · have hL : splitL sep (c :: cs) =
          [] :: splitCore sep cs.length ((c :: cs).drop sep.length) := by
        simp only [splitL, List.length_cons, splitCore, if_pos hp]
      rw [hL, splitCore_congr sep hsep cs.length ((c :: cs).drop sep.length).length
          ((c :: cs).drop sep.length) (by simp; omega) (Nat.le_refl _)]
      simp only [splitFirst, if_pos hp]
      rfl
    · have hL : splitL sep (c :: cs) =
          match splitCore sep cs.length cs with
          | [] => [[c]]
          | p :: ps => (c :: p) :: ps := by
        simp only [splitL, List.length_cons, splitCore, if_neg hp]
      rw [hL]
      have hcs : splitCore sep cs.length cs = splitL sep cs := rfl
      rw [hcs, ih]
      simp only [splitFirst, if_neg hp]
      cases hf : splitFirst sep cs with
      | none => rfl
      | some q => rfl

theorem splitL_getD_zero (sep : List Char) (hsep : sep ≠ []) (l : List Char) :
    (splitL sep l).getD 0 [] = beforeFirst sep l := by
  rw [splitL_eq sep hsep l]
  unfold beforeFirst
  cases splitFirst sep l with
  | none => rfl
  | some q => rfl

theorem splitL_getD_one (sep : List Char) (hsep : sep ≠ []) (l : List Char)
    (q : List Char × List Char) (h : splitFirst sep l = some q) :
    (splitL sep l).getD 1 [] = beforeFirst sep q.2 := by
  rw [splitL_eq sep hsep l, h]
  simp only [List.getD_cons_succ]
  exact splitL_getD_zero sep hsep q.2

theorem splitFirst_isSome_of_infix (sep : List Char) (hsep : sep ≠ []) :
    ∀ l : List Char, sep <:+: l → (splitFirst sep l).isSome := by
  intro l
  induction l with
  | nil =>
    intro h
    exact absurd (List.eq_nil_of_infix_nil h) hsep
  | cons c cs ih =>
    intro h
    simp only [splitFirst]
    by_cases hp : sep <+: (c :: cs)
    · rw [if_pos hp]; rfl
    · rw [if_neg hp]
      have hcs : sep <:+: cs := by
        rcases List.infix_cons_iff.mp h with h1 | h2
        · exact absurd h1 hp
        · exact h2
      have := ih hcs
      cases hf : splitFirst sep cs with
      | none => rw [hf] at this; simp at this
      | some q => rfl

/-- C4: for any hand-off file text whose content does not contain the sentinel
substring, `get_system_prompt` returns the whitespace-trimmed text verbatim,
with no placeholder substitution applied. -/
theorem get_system_prompt_no_sentinel (desc raw : List Char)
    (h : ¬ sentinel <:+: raw) :
    get_system_prompt desc raw = stripL raw := by
  unfold get_system_prompt
  rw [if_neg]
  intro hc
  exact h (hc.trans (stripL_within raw))

/-- Witness for C4 at a concrete edited prompt file. -/
theorem get_system_prompt_no_sentinel_witness :
    ¬ sentinel <:+: strOf "You are a terse assistant for bird watchers." ∧
      get_system_prompt (strOf "birds") (strOf "You are a terse assistant for bird watchers.") =
        stripL (strOf "You are a terse assistant for bird watchers.") :=
  ⟨by decide, get_system_prompt_no_sentinel _ _ (by decide)⟩

theorem lookupKey_append_left (k : String) (l1 l2 : List (String × JVal))
    (v : JVal) (h : lookupKey k l1 = some v) :
    lookupKey k (l1 ++ l2) = some v := by
  induction l1 with
  | nil => simp [lookupKey] at h
  | cons p ps ih =>
    simp only [lookupKey, List.cons_append] at h ⊢
    by_cases hp : p.1 = k
    · rwa [if_pos hp] at h ⊢
    · rw [if_neg hp] at h ⊢
      exact ih h

theorem lookupKey_append_right (k : String) (l1 l2 : List (String × JVal))
    (h : lookupKey k l1 = none) :
    lookupKey k (l1 ++ l2) = lookupKey k l2 := by
  induction l1 with
  | nil => rfl
  | cons p ps ih =>
    simp only [lookupKey, List.cons_append] at h ⊢
    by_cases hp : p.1 = k
    · rw [if_pos hp] at h; cases h
    · rw [if_neg hp] at h ⊢
      exact ih h

theorem lookupKey_isSome_iff (k : String) (l : List (String × JVal)) :
    (lookupKey k l).isSome ↔ k ∈ l.map Prod.fst := by
  induction l with
  | nil => simp [lookupKey]
  | cons p ps ih =>
    simp only [lookupKey, List.map_cons, List.mem_cons]
    by_cases hp : p.1 = k
    · rw [if_pos hp]; simp [hp]
    · rw [if_neg hp]
      simp only [ih]
      constructor
      · exact Or.inr
      · intro h
        rcases h with h | h
        · exact absurd h.symm hp
        · exact h

theorem fillMissing_lookup_of_some (defaults : List (String × JVal)) :
    ∀ (m : List (String × JVal)) (k : String) (v : JVal),
      lookupKey k m = some v → lookupKey k (fillMissing defaults m) = some v := by
  induction defaults with
  | nil => intro m k v h; exact h
  | cons kd rest ih =>
    intro m k v h
    unfold fillMissing
    simp only [List.foldl_cons]
    by_cases hmem : kd.1 ∈ m.map Prod.fst
    · rw [if_pos hmem]; exact ih m k v h
    · rw [if_neg hmem]
      exact ih (m ++ [kd]) k v (lookupKey_append_left k m [kd] v h)

theorem fillMissing_lookup_of_none (defaults : List (String × JVal)) :
    ∀ (m : List (String × JVal)) (k : String) (d : JVal),
      (defaults.map Prod.fst).Nodup → lookupKey k m = none →
      (k, d) ∈ defaults → lookupKey k (fillMissing defaults m) = some d := by
  induction defaults with
  | nil => intro m k d _ _ hmem; simp at hmem
  | cons kd rest ih =>
    intro m k d hnd hnone hmem
    have hnd2 : (rest.map Prod.fst).Nodup := (List.nodup_cons.mp hnd).2
    unfold fillMissing
    simp only [List.foldl_cons]
    by_cases hk : kd.1 = k
    · have hmnot : kd.1 ∉ m.map Prod.fst := by
        rw [hk, ← lookupKey_isSome_iff, hnone]
        simp
      rw [if_neg hmnot]
      have hkd : kd = (k, d) := by
        rcases List.mem_cons.mp hmem with h0 | h1
        · exact h0.symm
        · exfalso
          have : k ∈ rest.map Prod.fst :=
            List.mem_map.mpr ⟨(k, d), h1, rfl⟩
          rw [← hk] at this
          exact (List.nodup_cons.mp hnd).1 this
      have happ : lookupKey k (m ++ [kd]) = some d := by
        rw [lookupKey_append_right k m [kd] hnone, hkd]
        simp [lookupKey]
      exact fillMissing_lookup_of_some rest (m ++ [kd]) k d happ
    · have hmem2 : (k, d) ∈ rest := by
        rcases List.mem_cons.mp hmem with h0 | h1
        · exact absurd (by rw [← h0] : kd.1 = k) hk
        · exact h1
      by_cases hmm : kd.1 ∈ m.map Prod.fst
      · rw [if_pos hmm]
        exact ih m k d hnd2 hnone hmem2
      · rw [if_neg hmm]
        have hnone2 : lookupKey k (m ++ [kd]) = none := by
          rw [lookupKey_append_right k m [kd] hnone]
          simp [lookupKey, hk]
        exact ih (m ++ [kd]) k d hnd2 hnone2 hmem2

/-- C3: on a successfully parsed parameter map, the merge leaves every
user-supplied key bound to its parsed value, binds every default key that the
user did not supply to its built-in default, and never deletes a key: the
key set of the result includes the keys of the parsed map and all default keys. -/
theorem get_llm_parameters_merge_spec (m : List (String × JVal))
    (k : String) (d : JVal) (hk : (k, d) ∈ DEFAULT_LLM_PARAMS) :
    lookupKey k (get_llm_parameters_merge m) = some ((lookupKey k m).getD d) ∧
    (∀ k' v', lookupKey k' m = some v' →
      lookupKey k' (get_llm_parameters_merge m) = some v') ∧
    (∀ k', k' ∈ m.map Prod.fst ∨ k' ∈ DEFAULT_LLM_PARAMS.map Prod.fst →
      k' ∈ (get_llm_parameters_merge m).map Prod.fst) := by
  have hnd : (DEFAULT_LLM_PARAMS.map Prod.fst).Nodup := by decide
  refine ⟨?_, ?_, ?_⟩
  · cases hm : lookupKey k m with
    | none =>
      simpa using fillMissing_lookup_of_none DEFAULT_LLM_PARAMS m k d hnd hm hk
    | some v =>
      simpa using fillMissing_lookup_of_some DEFAULT_LLM_PARAMS m k v hm
  · intro k' v' h
    exact fillMissing_lookup_of_some DEFAULT_LLM_PARAMS m k' v' h
  · intro k' h
    rw [← lookupKey_isSome_iff]
    unfold get_llm_parameters_merge
    rcases h with h | h
    · rw [← lookupKey_isSome_iff] at h
      cases hm : lookupKey k' m with
      | none => rw [hm] at h; simp at h
      | some v =>
        rw [fillMissing_lookup_of_some DEFAULT_LLM_PARAMS m k' v hm]
        rfl
    · rcases List.mem_map.mp h with ⟨p, hp, hpk⟩
      cases hm : lookupKey k' m with
      | none =>
        rw [fillMissing_lookup_of_none DEFAULT_LLM_PARAMS m k' p.2 hnd hm
          (by rw [← hpk]; exact hp)]
        rfl
      | some v =>
        rw [fillMissing_lookup_of_some DEFAULT_LLM_PARAMS m k' v hm]
        rfl

/-- Witness for C3: a parsed map supplying `temperature` and an extra key. -/
theorem get_llm_parameters_merge_spec_witness :
    ("temperature", JVal.num (7 / 10)) ∈ DEFAULT_LLM_PARAMS ∧
    lookupKey "temperature"
        (get_llm_parameters_merge
          [("temperature", JVal.num 1), ("mirostat", JVal.num 2)]) =
      some ((lookupKey "temperature"
        [("temperature", JVal.num 1), ("mirostat", JVal.num 2)]).getD
          (JVal.num (7 / 10))) :=
  ⟨List.mem_cons_self _ _,
    (get_llm_parameters_merge_spec
      [("temperature", JVal.num 1), ("mirostat", JVal.num 2)]
      "temperature" (JVal.num (7 / 10)) (List.mem_cons_self _ _)).1⟩

/-- C6: when the parameter-file text is not valid JSON — the fenced block, if
one is found, fails to parse, and otherwise the whole text fails to parse —
`get_llm_parameters` returns the built-in default parameter map verbatim (the
failure is caught, not raised). -/
theorem get_llm_parameters_bad_json
    (loads : List Char → Option (List (String × JVal))) (content : List Char)
    (h1 : ∀ j, fencedJsonBlock content = some j → loads j = none)
    (h2 : fencedJsonBlock content = none → loads content = none) :
    get_llm_parameters loads content = DEFAULT_LLM_PARAMS := by
  unfold get_llm_parameters
  cases hf : fencedJsonBlock content with
  | some j =>
    show (match loads j with
      | some m => get_llm_parameters_merge m
      | none => DEFAULT_LLM_PARAMS) = DEFAULT_LLM_PARAMS
    rw [h1 j hf]
  | none =>
    show (match loads content with
      | some m => get_llm_parameters_merge m
      | none => DEFAULT_LLM_PARAMS) = DEFAULT_LLM_PARAMS
    rw [h2 hf]

/-- Witness for C6: a parser that rejects everything, on a malformed file. -/
theorem get_llm_parameters_bad_json_witness :
    get_llm_parameters (fun _ => none) (strOf "this is not json") =
      DEFAULT_LLM_PARAMS :=
  get_llm_parameters_bad_json (fun _ => none) (strOf "this is not json")
    (fun _ _ => rfl) (fun _ => rfl)

theorem placeholderTok_ne_nil (key : String) : placeholderTok key ≠ [] := by
  intro h
  rcases List.append_eq_nil.mp h with ⟨h1, _⟩
  exact (by decide : strOf "\x7b\x7b\x7b " ≠ []) h1

theorem splitCore_ne_nil (sep : List Char) (fuel : Nat) (l : List Char) :
    splitCore sep fuel l ≠ [] := by
  match fuel, l with
  | _, [] => simp [splitCore]
  | 0, c :: cs => simp [splitCore]
  | f + 1, c :: cs =>
    simp only [splitCore]
    by_cases hp : sep <+: (c :: cs)
    · rw [if_pos hp]; simp
    · rw [if_neg hp]
      cases splitCore sep f cs <;> simp

theorem intercalate_cons_head (new : List Char) (c : Char) (p0 : List Char)
    (ps : List (List Char)) :
    List.intercalate new ((c :: p0) :: ps) = c :: List.intercalate new (p0 :: ps) := by
  cases ps <;> simp [List.intercalate]

theorem intercalate_nil_cons (new : List Char) (r : List (List Char)) (h : r ≠ []) :
    List.intercalate new ([] :: r) = new ++ List.intercalate new r := by
  cases r with
  | nil => exact absurd rfl h
  | cons y ys => cases ys <;> simp [List.intercalate]

theorem splitCore_head_isPre (sep : List Char) :
    ∀ (fuel : Nat) (l p0 : List Char) (ps : List (List Char)),
      splitCore sep fuel l = p0 :: ps → p0 <+: l := by
  intro fuel
  induction fuel with
  | zero =>
    intro l p0 ps h
    match l with
    | [] => simp [splitCore] at h; simp [h.1]
    | c :: cs => simp [splitCore] at h; simp [← h.1]
  | succ g ih =>
    intro l p0 ps h
    match l with
    | [] => simp [splitCore] at h; simp [h.1]
    | c :: cs =>
      simp only [splitCore] at h
      by_cases hp : sep <+: (c :: cs)
      · rw [if_pos hp] at h
        cases h
        exact List.nil_prefix
      · rw [if_neg hp] at h
        cases hsc : splitCore sep g cs with
        | nil => exact absurd hsc (splitCore_ne_nil sep g cs)
        | cons q0 qs =>
          rw [hsc] at h
          injection h with h1 h2
          subst h1
          rcases ih cs q0 qs hsc with ⟨t, ht⟩
          exact ⟨t, by rw [List.cons_append, ht]⟩

theorem splitCore_parts_free (sep : List Char) (hsep : sep ≠ []) :
    ∀ (fuel : Nat) (l : List Char), l.length ≤ fuel →
      ∀ p ∈ splitCore sep fuel l, ¬ sep <:+: p := by
  intro fuel
  induction fuel with
  | zero =>
    intro l hl p hp
    have : l = [] := List.eq_nil_of_length_eq_zero (Nat.le_zero.mp hl)
    subst this
    simp [splitCore] at hp
    subst hp
    intro h
    exact hsep (List.eq_nil_of_infix_nil h)
  | succ g ih =>
    intro l hl p hp
    match l with
    | [] =>
      simp [splitCore] at hp
      subst hp
      intro h
      exact hsep (List.eq_nil_of_infix_nil h)
    | c :: cs =>
      have hsl : 1 ≤ sep.length := by
        cases sep with
        | nil => exact absurd rfl hsep
        | cons a s => simp
      simp only [splitCore] at hp
      by_cases hpre : sep <+: (c :: cs)
      · rw [if_pos hpre] at hp
        rcases List.mem_cons.mp hp with h0 | h1
        · subst h0
          intro h
          exact hsep (List.eq_nil_of_infix_nil h)
        · exact ih ((c :: cs).drop sep.length) (by simp at hl ⊢; omega) p h1
      · rw [if_neg hpre] at hp
        cases hsc : splitCore sep g cs with
        | nil => exact absurd hsc (splitCore_ne_nil sep g cs)
        | cons q0 qs =>
          rw [hsc] at hp
          have hcs : cs.length ≤ g := by simp at hl; omega
          rcases List.mem_cons.mp hp with h0 | h1
          · subst h0
            intro hinf
            rcases List.infix_cons_iff.mp hinf with hpre2 | hinf2
            · rcases splitCore_head_isPre sep g cs q0 qs hsc with ⟨t, ht⟩
              exact hpre (hpre2.trans ⟨t, by rw [List.cons_append, ht]⟩)
            · exact ih cs hcs q0 (by rw [hsc]; exact List.mem_cons_self q0 qs) hinf2
          · exact ih cs hcs p (by rw [hsc]; exact List.mem_cons_of_mem q0 h1)

theorem replaceCore_eq_intercalate (sep new : List Char) (hsep : sep ≠ []) :
    ∀ (fuel : Nat) (l : List Char), l.length ≤ fuel →
      replaceCore sep new fuel l = List.intercalate new (splitCore sep fuel l) := by
  intro fuel
  induction fuel with
  | zero =>
    intro l hl
    have : l = [] := List.eq_nil_of_length_eq_zero (Nat.le_zero.mp hl)
    subst this
    simp [replaceCore, splitCore, List.intercalate]
  | succ g ih =>
    intro l hl
    match l with
    | [] => simp [replaceCore, splitCore, List.intercalate]
    | c :: cs =>
      have hsl : 1 ≤ sep.length := by
        cases sep with
        | nil => exact absurd rfl hsep
        | cons a s => simp
      simp only [replaceCore, splitCore]
      by_cases hpre : sep <+: (c :: cs)
      · rw [if_pos hpre, if_pos hpre,
          intercalate_nil_cons new _ (splitCore_ne_nil sep g _),
          ih ((c :: cs).drop sep.length) (by simp at hl ⊢; omega)]
      · rw [if_neg hpre, if_neg hpre]
        have hcs : cs.length ≤ g := by simp at hl; omega
        cases hsc : splitCore sep g cs with
        | nil => exact absurd hsc (splitCore_ne_nil sep g cs)
        | cons q0 qs =>
          rw [intercalate_cons_head, ← hsc, ih cs hcs]

/-- C2 (amended): the substitution for each key is a single pass.  The output of one
`replace` is the token-free segments of the input joined by the substituted
value, so the value inserted for a key is never re-scanned for the token of
that same key; a token-shaped substring introduced by a substituted value can only be
expanded by the pass of a key that is substituted later. -/
theorem replace_single_pass (key value : String) (l : List Char) :
    replaceL (placeholderTok key) (strOf value) l =
      List.intercalate (strOf value) (splitL (placeholderTok key) l) ∧
    ∀ p ∈ splitL (placeholderTok key) l, ¬ placeholderTok key <:+: p :=
  ⟨replaceCore_eq_intercalate (placeholderTok key) (strOf value)
      (placeholderTok_ne_nil key) l.length l (Nat.le_refl _),
    fun p hp => splitCore_parts_free (placeholderTok key)
      (placeholderTok_ne_nil key) l.length l (Nat.le_refl _) p hp⟩

/-- Counterexample to C2: rendering a file that consists of the
`chatbot_description` placeholder inserts the description value (which is
exactly the `github_username` token), and the later `github_username` pass then
expands it to `"alice"`: the introduced token-shaped substring does not survive
to the output, contradicting "never expanded by a later substitution". -/
theorem render_expands_inserted_token :
    renderContent exampleConfig (placeholderTok "chatbot_description") = strOf "alice" ∧
    ¬ placeholderTok "github_username" <:+:
        renderContent exampleConfig (placeholderTok "chatbot_description") := by
  decide

/-- C1 (failing evaluation): rendering the template line of the repository itself with
a full resolved configuration leaves the line unchanged — the renderer only
replaces triple-braced `\x7b\x7b\x7b key \x7d\x7d\x7d` placeholders, so the
double-braced `model_name` token of `templates/llm.py` survives verbatim in
the output, contradicting "no output file contains any remaining occurrence of
any placeholder token of a resolved key". -/
theorem render_leaves_template_token :
    renderContent exampleConfig llmTemplateLine = llmTemplateLine ∧
    doubleBraceToken "model_name" <:+: renderContent exampleConfig llmTemplateLine := by
  decide

/-- Counterexample to C7: with the first template file unreadable and the
second readable, the run stops at the first file and writes nothing — the
readable second file is not rendered, contradicting "skips only that file,
continuing to render the remaining files". -/
theorem render_tree_aborts_on_unreadable :
    copy_and_update_template_run exampleConfig
        [("a.txt", none), ("b.txt", some (strOf "hello"))] = ([], some "a.txt") ∧
    ("b.txt", strOf "hello") ∉
      (copy_and_update_template_run exampleConfig
        [("a.txt", none), ("b.txt", some (strOf "hello"))]).1 := by
  decide

/-- C7 (amended): an unreadable source file aborts the whole rendering loop:
all files enumerated before it are rendered and written, the exception of the
unreadable file propagates, and no file after it is processed. -/
theorem render_tree_stops_at_first_unreadable
    (config : List (String × String))
    (pre : List (String × Option (List Char))) (path : String)
    (post : List (String × Option (List Char)))
    (h : ∀ f ∈ pre, (f.2).isSome) :
    copy_and_update_template_run config (pre ++ (path, none) :: post) =
      (pre.map (fun f => (f.1, renderContent config (f.2.getD []))), some path) := by
  induction pre with
  | nil => rfl
  | cons q pre2 ih =>
    obtain ⟨c, hc⟩ := Option.isSome_iff_exists.mp (h q (List.mem_cons_self q pre2))
    obtain ⟨p0, c0⟩ := q
    simp only at hc
    subst hc
    simp only [List.cons_append, copy_and_update_template_run, List.map_cons]
    simp only [List.append_eq]
    rw [ih (fun f hf => h f (List.mem_cons_of_mem _ hf))]
    exact rfl

/-- Witness for the amended C7: one readable file before the unreadable one. -/
theorem render_tree_stops_at_first_unreadable_witness :
    copy_and_update_template_run exampleConfig
        ([("x.md", some (strOf "hi"))] ++ ("y.md", none) :: []) =
      ([("x.md", renderContent exampleConfig (strOf "hi"))], some "y.md") :=
  render_tree_stops_at_first_unreadable exampleConfig
    [("x.md", some (strOf "hi"))] "y.md" [] (by decide)

/-- C8: when the target directory pre-exists and the single overwrite
confirmation is declined, the run halts (`sys.exit(0)` is reached before any
`shutil.rmtree` or `mkdir`) with zero file-system operations performed under
the target. -/
theorem create_directory_structure_declined (name : String) :
    create_directory_structure name true false = ([], false) := rfl

theorem map_fst_setParam (m : List (String × JVal)) (k : String) (v : JVal) :
    (setParam m k v).map Prod.fst =
      if k ∈ m.map Prod.fst then m.map Prod.fst else m.map Prod.fst ++ [k] := by
  unfold setParam
  by_cases hm : k ∈ m.map Prod.fst
  · rw [if_pos hm, if_pos hm, List.map_map]
    refine List.map_congr_left ?_
    intro p _
    by_cases hp : p.1 = k
    · simp [hp]
    · simp [hp]
  · rw [if_neg hm, if_neg hm]
    simp

theorem lookupKey_map_set_ne (k0 : String) (v : JVal) (k : String)
    (hk : k ≠ k0) :
    ∀ ps : List (String × JVal),
      lookupKey k (ps.map (fun p => if p.1 = k0 then (k0, v) else p)) =
        lookupKey k ps := by
  intro ps
  induction ps with
  | nil => rfl
  | cons p rest ih =>
    simp only [List.map_cons, lookupKey]
    by_cases hp : p.1 = k0
    · rw [if_pos hp]
      show (if k0 = k then some v else _) = _
      rw [if_neg (fun h => hk h.symm),
        if_neg (by rw [hp]; exact fun h => hk h.symm)]
      exact ih
    · rw [if_neg hp]
      show (if p.1 = k then some p.2 else _) = _
      by_cases hpk : p.1 = k
      · rw [if_pos hpk, if_pos hpk]
      · rw [if_neg hpk, if_neg hpk]
        exact ih

theorem lookupKey_setParam_ne (m : List (String × JVal)) (k0 : String)
    (v : JVal) (k : String) (hk : k ≠ k0) :
    lookupKey k (setParam m k0 v) = lookupKey k m := by
  unfold setParam
  by_cases hm : k0 ∈ m.map Prod.fst
  · rw [if_pos hm]
    exact lookupKey_map_set_ne k0 v k hk m
  · rw [if_neg hm]
    cases hl : lookupKey k m with
    | some w => exact lookupKey_append_left k m [(k0, v)] w hl
    | none =>
      rw [lookupKey_append_right k m [(k0, v)] hl]
      show (if k0 = k then some v else none) = none
      rw [if_neg (fun h => hk h.symm)]

theorem foldl_setParam_lookup_notMem (updates : List (String × JVal)) :
    ∀ (m : List (String × JVal)) (k : String), k ∉ updates.map Prod.fst →
      lookupKey k (updates.foldl (fun acc kv => setParam acc kv.1 kv.2) m) =
        lookupKey k m := by
  induction updates with
  | nil => intro m k _; rfl
  | cons kv rest ih =>
    intro m k hk
    simp only [List.map_cons, List.mem_cons] at hk
    push_neg at hk
    simp only [List.foldl_cons]
    rw [ih (setParam m kv.1 kv.2) k hk.2,
      lookupKey_setParam_ne m kv.1 kv.2 k hk.1]

theorem foldl_setParam_mem_keys (updates : List (String × JVal)) :
    ∀ (m : List (String × JVal)) (k : String),
      k ∈ (updates.foldl (fun acc kv => setParam acc kv.1 kv.2) m).map Prod.fst ↔
        (k ∈ m.map Prod.fst ∨ k ∈ updates.map Prod.fst) := by
  induction updates with
  | nil => intro m k; simp
  | cons kv rest ih =>
    intro m k
    simp only [List.foldl_cons, List.map_cons, List.mem_cons]
    rw [ih (setParam m kv.1 kv.2) k, map_fst_setParam m kv.1 kv.2]
    by_cases hm : kv.1 ∈ m.map Prod.fst
    · rw [if_pos hm]
      constructor
      · intro h
        rcases h with h | h
        · exact Or.inl h
        · exact Or.inr (Or.inr h)
      · intro h
        rcases h with h | h | h
        · exact Or.inl h
        · rw [h]; exact Or.inl hm
        · exact Or.inr h
    · rw [if_neg hm]
      simp only [List.mem_append, List.mem_singleton]
      constructor
      · intro h
        rcases h with (h | h) | h
        · exact Or.inl h
        · exact Or.inr (Or.inl h)
        · exact Or.inr (Or.inr h)
      · intro h
        rcases h with h | h | h
        · exact Or.inl (Or.inl h)
        · exact Or.inl (Or.inr h)
        · exact Or.inr h

/-- C10: `update_parameters` changes only the entries of
`config["parameters"]` whose keys appear in the updates (adding keys not
present before); every other parameter key keeps its value, the parameter key
set only grows by the update keys, and `system_prompt` and `metadata` are left
unchanged. -/
theorem update_parameters_frame (config : LlmConfig)
    (updates : List (String × JVal)) (k : String)
    (hk : k ∉ updates.map Prod.fst) :
    (update_parameters config updates).system_prompt = config.system_prompt ∧
    (update_parameters config updates).metadata = config.metadata ∧
    lookupKey k (update_parameters config updates).parameters =
      lookupKey k config.parameters ∧
    (∀ k', k' ∈ (update_parameters config updates).parameters.map Prod.fst ↔
      (k' ∈ config.parameters.map Prod.fst ∨ k' ∈ updates.map Prod.fst)) :=
  ⟨rfl, rfl,
    foldl_setParam_lookup_notMem updates config.parameters k hk,
    fun k' => foldl_setParam_mem_keys updates config.parameters k'⟩

/-- Witness for C10 on a concrete configuration and update set. -/
theorem update_parameters_frame_witness :
    "top_p" ∉ ([("temperature", JVal.num 2), ("num_ctx", JVal.num 4096)].map
        (Prod.fst (α := String) (β := JVal))) ∧
    lookupKey "top_p"
        (update_parameters
          { system_prompt := "You are a helpful assistant.",
            parameters :=
              [("temperature", JVal.num 1), ("top_p", JVal.num 1)],
            metadata :=
              { created_at := "2026-10-12", description := "cfg",
                version := "1.0" } }
          [("temperature", JVal.num 2), ("num_ctx", JVal.num 4096)]).parameters =
      lookupKey "top_p" [("temperature", JVal.num 1), ("top_p", JVal.num 1)] :=
  ⟨by decide,
    (update_parameters_frame
      { system_prompt := "You are a helpful assistant.",
        parameters := [("temperature", JVal.num 1), ("top_p", JVal.num 1)],
        metadata :=
          { created_at := "2026-10-12", description := "cfg",
            version := "1.0" } }
      [("temperature", JVal.num 2), ("num_ctx", JVal.num 4096)]
      "top_p" (by decide)).2.2.1⟩

theorem isPrefixB_eq_true_iff : ∀ a b : List Char, isPrefixB a b = true ↔ a <+: b := by
  intro a
  induction a with
  | nil =>
    intro b
    constructor
    · intro _; exact List.nil_prefix
    · intro _; rfl
  | cons x xs ih =>
    intro b
    cases b with
    | nil =>
      constructor
      · intro h; simp [isPrefixB] at h
      · intro h
        rcases h with ⟨t, ht⟩
        simp at ht
    | cons y ys =>
      constructor
      · intro h
        simp only [isPrefixB, Bool.and_eq_true, beq_iff_eq] at h
        rcases h with ⟨hxy, hp⟩
        rcases (ih ys).mp hp with ⟨t, ht⟩
        exact ⟨t, by rw [List.cons_append, ht, hxy]⟩
      · intro h
        rcases h with ⟨t, ht⟩
        rw [List.cons_append] at ht
        injection ht with h1 h2
        simp only [isPrefixB, Bool.and_eq_true, beq_iff_eq]
        exact ⟨h1, (ih ys).mpr ⟨t, h2⟩⟩

theorem containsB_eq_true_iff : ∀ (n h : List Char), containsB n h = true ↔ n <:+: h := by
  intro n h
  induction h with
  | nil =>
    show isPrefixB n [] = true ↔ n <:+: []
    rw [isPrefixB_eq_true_iff]
    constructor
    · intro hp; exact hp.isInfix
    · intro hi
      rw [List.eq_nil_of_infix_nil hi]
  | cons c t ih =>
    show (isPrefixB n (c :: t) || containsB n t) = true ↔ n <:+: c :: t
    rw [Bool.or_eq_true, isPrefixB_eq_true_iff, ih, ← List.infix_cons_iff]

theorem not_infix_of_containsB_eq_false (n h : List Char)
    (hc : containsB n h = false) : ¬ n <:+: h := by
  intro hi
  rw [← containsB_eq_true_iff] at hi
  rw [hc] at hi
  simp at hi

/-- C9: for every registry theme, composing with the `"rounded"` font yields a
stylesheet containing the rounded block and none of the other four style-tag
blocks; and for every font whose style tag matches none of the five known
tags, the result is exactly the generated scaffold (header, base, style
comment) with no trailing style block — composition is total, never an
error. -/
theorem generate_custom_css_spec
    (theme : ThemeColors) (hth : theme ∈ THEME_COLORS.map Prod.snd)
    (font : FontStyle)
    (htag : font.style ∉ ["clean", "traditional", "minimal", "code", "rounded"])
    (botName : String) (theme2 : ThemeColors) (base : String) :
    (strOf roundedBlock <:+:
        generate_custom_css "birdbot" theme friendlyFont defaultBaseCss ∧
      ∀ b ∈ [cleanBlock, traditionalBlock, minimalBlock, codeBlock],
        ¬ strOf b <:+:
          generate_custom_css "birdbot" theme friendlyFont defaultBaseCss) ∧
    generate_custom_css botName theme2 font base =
      strOf (cssScaffold botName theme2 font base) := by
  refine ⟨⟨?_, ?_⟩, ?_⟩
  · have he : generate_custom_css "birdbot" theme friendlyFont defaultBaseCss =
        strOf (cssScaffold "birdbot" theme friendlyFont defaultBaseCss) ++
          strOf roundedBlock := rfl
    rw [he]
    exact ( List.suffix_append _ _).isInfix
  · intro b hb
    simp only [THEME_COLORS, List.map_cons, List.map_nil, List.mem_cons,
      List.not_mem_nil, or_false] at hth
    fin_cases hb <;> rcases hth with h | h | h | h | h <;> subst h <;>
      exact not_infix_of_containsB_eq_false _ _ (by decide)
  · have h1 : font.style ≠ "clean" := fun h => htag (by rw [h]; simp)
    have h2 : font.style ≠ "traditional" := fun h => htag (by rw [h]; simp)
    have h3 : font.style ≠ "minimal" := fun h => htag (by rw [h]; simp)
    have h4 : font.style ≠ "code" := fun h => htag (by rw [h]; simp)
    have h5 : font.style ≠ "rounded" := fun h => htag (by rw [h]; simp)
    unfold generate_custom_css
    rw [if_neg h1, if_neg h2, if_neg h3, if_neg h4, if_neg h5]

/-- Witness for C9: the sky theme and a font with an unrecognized tag. -/
theorem generate_custom_css_spec_witness :
    ((⟨"#0EA5E9", "#F0F9FF", "#0C4A6E"⟩ : ThemeColors) ∈
        THEME_COLORS.map Prod.snd ∧
      "fancy" ∉ ["clean", "traditional", "minimal", "code", "rounded"]) ∧
    generate_custom_css "birdbot" ⟨"#0EA5E9", "#F0F9FF", "#0C4A6E"⟩
        ⟨"Whimsy", "Comic Sans MS, cursive", "fancy"⟩ "" =
      strOf (cssScaffold "birdbot" ⟨"#0EA5E9", "#F0F9FF", "#0C4A6E"⟩
        ⟨"Whimsy", "Comic Sans MS, cursive", "fancy"⟩ "") :=
  ⟨⟨by decide, by decide⟩,
    (generate_custom_css_spec ⟨"#0EA5E9", "#F0F9FF", "#0C4A6E"⟩ (by decide)
      ⟨"Whimsy", "Comic Sans MS, cursive", "fancy"⟩ (by decide)
      "birdbot" ⟨"#0EA5E9", "#F0F9FF", "#0C4A6E"⟩ "").2⟩

/-- Counterexample to C5: on `duplicatedHeadingFile` the sentinel and both
heading markers are present, yet `get_system_prompt` returns `"A"` while the
trimmed interior between the markers (with the description token substituted)
is `"A ## Default Prompt B"`. -/
theorem get_system_prompt_interior_counterexample :
    (sentinel <:+: stripL duplicatedHeadingFile ∧
      defaultPromptHeading <:+: stripL duplicatedHeadingFile ∧
      tipsHeading <:+: stripL duplicatedHeadingFile) ∧
    get_system_prompt (strOf "birds") duplicatedHeadingFile = strOf "A" ∧
    replaceL descriptionToken (strOf "birds")
        (stripL (interiorBetweenMarkers (stripL duplicatedHeadingFile))) =
      strOf "A ## Default Prompt B" ∧
    get_system_prompt (strOf "birds") duplicatedHeadingFile ≠
      replaceL descriptionToken (strOf "birds")
        (stripL (interiorBetweenMarkers (stripL duplicatedHeadingFile))) := by
  decide

/-- C5 (amended): for boilerplate text containing the sentinel and both heading
markers, `get_system_prompt` returns the trimmed text after the first
`"## Default Prompt"`, cut at the next `"## Default Prompt"` occurrence if one
is present, then cut at the first following `"## Tips"`, with the description
token substituted. -/
theorem get_system_prompt_boilerplate (desc raw : List Char)
    (hs : sentinel <:+: stripL raw)
    (h1 : defaultPromptHeading <:+: stripL raw)
    (h2 : tipsHeading <:+: stripL raw) :
    get_system_prompt desc raw =
      replaceL descriptionToken desc
        (stripL (betweenHeadingSplits (stripL raw))) := by
  have hm1 : defaultPromptHeading ≠ [] := by decide
  have hm2 : tipsHeading ≠ [] := by decide
  have hsome := splitFirst_isSome_of_infix defaultPromptHeading hm1 (stripL raw) h1
  cases hf : splitFirst defaultPromptHeading (stripL raw) with
  | none => rw [hf] at hsome; simp at hsome
  | some q =>
    unfold get_system_prompt
    rw [if_pos hs, if_pos ⟨h1, h2⟩]
    rw [splitL_getD_one defaultPromptHeading hm1 (stripL raw) q hf]
    rw [splitL_getD_zero tipsHeading hm2 (beforeFirst defaultPromptHeading q.2)]
    unfold betweenHeadingSplits
    rw [hf]

/-- Witness for the amended C5 at a typical unedited boilerplate file. -/
theorem get_system_prompt_boilerplate_witness :
    (sentinel <:+: stripL (strOf "Intro text.\nDelete everything above this line\n## Default Prompt\nYou help with \x7b\x7bchatbot_description\x7d\x7d.\n## Tips\nBe kind.") ∧
      defaultPromptHeading <:+: stripL (strOf "Intro text.\nDelete everything above this line\n## Default Prompt\nYou help with \x7b\x7bchatbot_description\x7d\x7d.\n## Tips\nBe kind.") ∧
      tipsHeading <:+: stripL (strOf "Intro text.\nDelete everything above this line\n## Default Prompt\nYou help with \x7b\x7bchatbot_description\x7d\x7d.\n## Tips\nBe kind.")) ∧
    get_system_prompt (strOf "birds") (strOf "Intro text.\nDelete everything above this line\n## Default Prompt\nYou help with \x7b\x7bchatbot_description\x7d\x7d.\n## Tips\nBe kind.") =
      replaceL descriptionToken (strOf "birds")
        (stripL (betweenHeadingSplits (stripL (strOf "Intro text.\nDelete everything above this line\n## Default Prompt\nYou help with \x7b\x7bchatbot_description\x7d\x7d.\n## Tips\nBe kind.")))) :=
  ⟨⟨by decide, by decide, by decide⟩,
    get_system_prompt_boilerplate _ _ (by decide) (by decide) (by decide)⟩
